import Mathlib

/-!
Shallow embedding of the `@rumenx/feed` core (Feed aggregate, validation
engine, URL resolution, statistics and the RSS/Atom serialization engine)
together with theorems checking the natural-language specification against
this embedding.

Modelling conventions:
* JavaScript strings are Lean `String`s; optional fields are `Option`s and
  JavaScript truthiness tests on them are made explicit (`some ""` is falsy
  for strings, `some 0` is falsy for numbers, objects and arrays are truthy).
* Instants are modelled as natural numbers; the impure `getCurrentDate()`
  primitive becomes an explicit `now : Nat` argument threaded into every
  operation that reads the clock in the source.
* Calendar arithmetic inside the date formatters is abstracted as an
  injective rendering of the model instant; no claim depends on the concrete
  date grammar.
* `throw` is modelled with `Except String`; for the batch insertion path the
  post-failure state is returned alongside the error, matching the in-place
  mutation semantics of the source.
-/

namespace NpmFeed

/-! ## JavaScript character classes and string primitives -/

/-- The character set matched by the JavaScript regex class `\s`
(whitespace, line terminators, NBSP, BOM and the Unicode space separators). -/
def jsWhitespaceChars : List Char :=
  [' ', '\t', '\n', '\x0d', Char.ofNat 0x0b, Char.ofNat 0x0c,
   Char.ofNat 0xa0, Char.ofNat 0xfeff, Char.ofNat 0x1680,
   Char.ofNat 0x2000, Char.ofNat 0x2001, Char.ofNat 0x2002,
   Char.ofNat 0x2003, Char.ofNat 0x2004, Char.ofNat 0x2005,
   Char.ofNat 0x2006, Char.ofNat 0x2007, Char.ofNat 0x2008,
   Char.ofNat 0x2009, Char.ofNat 0x200a, Char.ofNat 0x2028,
   Char.ofNat 0x2029, Char.ofNat 0x202f, Char.ofNat 0x205f,
   Char.ofNat 0x3000]

def isJsWhitespace (c : Char) : Bool := jsWhitespaceChars.contains c

/-- JavaScript line terminators, the characters NOT matched by `.`. -/
def isLineTerminator (c : Char) : Bool :=
  c = '\n' || c = '\x0d' || c = Char.ofNat 0x2028 || c = Char.ofNat 0x2029

/-- JavaScript `String.prototype.trim`. -/
def jsTrim (s : String) : String :=
  String.mk (((s.data.dropWhile isJsWhitespace).reverse.dropWhile isJsWhitespace).reverse)

/-- JavaScript `String.prototype.toLowerCase` (ASCII fragment, which is all
the validator ever compares). -/
def jsToLower (s : String) : String := String.mk (s.data.map Char.toLower)

/-- Global single-character regex replacement, `str.replace(/c/g, rep)`. -/
def replaceAllChar (s : List Char) (pat : Char) (rep : List Char) : List Char :=
  s.flatMap (fun c => if c = pat then rep else [c])

/-- Boolean list-head matching used by the hand-rolled regex matchers and
the substring tester. -/
def listHasPre (p l : List Char) : Bool :=
  match p, l with
  | [], _ => true
  | _ :: _, [] => false
  | a :: ps, b :: ls => a = b && listHasPre ps ls

/-- Boolean substring containment on strings. -/
def substrOf (pat s : String) : Bool :=
  s.data.tails.any (fun t => listHasPre pat.data t)

/-- JavaScript `String.prototype.startsWith`. -/
def jsStartsWith (s p : String) : Bool := listHasPre p.data s.data

/-- JavaScript `String.prototype.endsWith`. -/
def jsEndsWith (s p : String) : Bool := listHasPre p.data.reverse s.data.reverse

/-! ## The URL / language-code regex matchers of `src/utils/Validator.ts` -/

/-- Consume a case-insensitive literal from the head of the character list. -/
def stripCI (pat : List Char) (cs : List Char) : Option (List Char) :=
  match pat, cs with
  | [], rest => some rest
  | _ :: _, [] => none
  | p :: ps, c :: rest =>
    if Char.toLower c = Char.toLower p then stripCI ps rest else none

/-- Match the scheme part `https?:\/\/` (case-insensitive) of both validator
regexes, returning the remainder of the input. -/
def matchSchemeTail (cs : List Char) : Option (List Char) :=
  match stripCI "http".data cs with
  | none => none
  | some rest =>
    match rest with
    | [] => none
    | c :: r =>
      if Char.toLower c = 's' then stripCI "://".data r
      else stripCI "://".data rest

/-- The body `[^\s/$.?#].[^\s]*$` of the URL regex: one constrained
character, one arbitrary non-line-terminator, then only non-whitespace. -/
def urlBodyOk (cs : List Char) : Bool :=
  match cs with
  | c1 :: c2 :: rest =>
    (!isJsWhitespace c1 && !(['/', '$', '.', '?', '#'].contains c1))
      && !isLineTerminator c2
      && rest.all (fun c => !isJsWhitespace c)
  | _ => false

/-- `isValidUrl` of the source: trims, rejects the empty trim, then tests the
anchored regex `^https?:\/\/[^\s/$.?#].[^\s]*$` with the `i` flag. -/
def isValidUrl (url : String) : Bool :=
  let t := jsTrim url
  if t = "" then false
  else
    match matchSchemeTail t.data with
    | none => false
    | some rest => urlBodyOk rest

/-- Hostname extraction via `url.match(/^https?:\/\/([^\/]+)/i)`: the maximal
run of non-slash characters right after the scheme, non-empty. -/
def extractHostname (url : String) : Option String :=
  match matchSchemeTail url.data with
  | none => none
  | some rest =>
    let host := rest.takeWhile (fun c => c != '/')
    if host.isEmpty then none else some (String.mk host)

/-- `isAllowedDomain` of the source: an empty allow-list accepts everything;
otherwise the lowercased hostname must equal an allowed domain or end in
`"." ++ domain`. -/
def isAllowedDomain (url : String) (allowedDomains : List String) : Bool :=
  if allowedDomains.isEmpty then true
  else
    match extractHostname url with
    | none => false
    | some h =>
      let hostname := jsToLower h
      allowedDomains.any (fun domain =>
        let normalizedDomain := jsToLower domain
        hostname = normalizedDomain
          || jsEndsWith hostname ("." ++ normalizedDomain))

def isAsciiLowerAlpha (c : Char) : Bool := 'a' ≤ c && c ≤ 'z'

def isAsciiUpperAlpha (c : Char) : Bool := 'A' ≤ c && c ≤ 'Z'

/-- The language-tag regex `^[a-z]{2}(-[A-Z]{2})?$`. -/
def langTagOk (cs : List Char) : Bool :=
  match cs with
  | [a, b] => isAsciiLowerAlpha a && isAsciiLowerAlpha b
  | [a, b, d, e, f] =>
    isAsciiLowerAlpha a && isAsciiLowerAlpha b && d = '-'
      && isAsciiUpperAlpha e && isAsciiUpperAlpha f
  | _ => false

/-- `isValidLanguageCode` of the source: rejects a blank trim, then tests the
regex against the UNtrimmed input. -/
def isValidLanguageCode (lang : String) : Bool :=
  if jsTrim lang = "" then false else langTagOk lang.data

/-- `isValidPriority`: a number in [0.0, 1.0]. -/
def isValidPriority (priority : ℚ) : Bool := 0 ≤ priority && priority ≤ 1

/-! ## Item data model (`src/types/FeedItemTypes.ts`) -/

/-- The offending `value` slot of a validation error (string or number). -/
inductive ErrVal where
  | str (s : String)
  | num (q : ℚ)
deriving DecidableEq

structure ValidationError where
  field : String
  type : String
  message : String
  value : ErrVal
deriving DecidableEq

/-- A `pubdate` is either a date-like string or a Date object (an instant). -/
inductive PubDate where
  | str (s : String)
  | date (t : Nat)
deriving DecidableEq

/-- `category` is a single value or an array of values. -/
inductive CategoryField where
  | one (c : String)
  | many (cs : List String)
deriving DecidableEq

structure EnclosureData where
  url : String
  type : String
  length : Option Nat := none
deriving DecidableEq

structure ImageData where
  url : String
  title : Option String := none
  caption : Option String := none
  type : Option String := none
  width : Option Nat := none
  height : Option Nat := none
  license : Option String := none
  geoLocation : Option String := none
deriving DecidableEq

structure VideoData where
  thumbnail_url : String
  title : String
  description : String
  content_url : String
  duration : Option Nat := none
  rating : Option ℚ := none
  view_count : Option Nat := none
  publication_date : Option String := none
  family_friendly : Option Bool := none
  tags : Option (List String) := none
deriving DecidableEq

structure TranslationData where
  language : String
  url : String
deriving DecidableEq

structure NewsData where
  sitename : String
  language : String
  publication_date : PubDate
  title : String
  keywords : Option String := none
deriving DecidableEq

inductive ChangeFreq where
  | always | hourly | daily | weekly | monthly | yearly | never
deriving DecidableEq

structure FeedItemData where
  title : String
  description : String
  link : String
  author : Option String := none
  pubdate : Option PubDate := none
  guid : Option String := none
  category : Option CategoryField := none
  enclosure : Option EnclosureData := none
  images : Option (List ImageData) := none
  videos : Option (List VideoData) := none
  translations : Option (List TranslationData) := none
  news : Option NewsData := none
  priority : Option ℚ := none
  changefreq : Option ChangeFreq := none
deriving DecidableEq

/-! ## The composite item validator (`src/utils/Validator.ts`) -/

/-- `validateRequiredString`: a string whose trim is empty yields a
`required` error. -/
def validateRequiredString (value : String) (fieldName : String) :
    Option ValidationError :=
  if jsTrim value = "" then
    some { field := fieldName, type := "required",
           message := fieldName ++ " is required and must be a non-empty string",
           value := .str value }
  else none

/-- `validateUrl`: required-string check, then URL grammar, then domain
allow-list; the first failing check produces the (single) error. -/
def validateUrl (url : String) (fieldName : String)
    (allowedDomains : List String) : Option ValidationError :=
  match validateRequiredString url fieldName with
  | some stringError => some stringError
  | none =>
    if !isValidUrl url then
      some { field := fieldName, type := "invalid_url",
             message := fieldName ++ " must be a valid HTTP or HTTPS URL",
             value := .str url }
    else if !isAllowedDomain url allowedDomains then
      some { field := fieldName, type := "domain_not_allowed",
             message := fieldName ++ " domain is not in the allowed domains list",
             value := .str url }
    else none

/-- `if (err) errors.push(err)` on the accumulated error list. -/
def pushOpt (errors : List ValidationError) (e : Option ValidationError) :
    List ValidationError :=
  match e with
  | some err => errors ++ [err]
  | none => errors

/-- The `images.forEach((image, index) => ...)` block: URL check per image,
pushed in index order. -/
def imagesErrors (images : List ImageData) (allowedDomains : List String) :
    List ValidationError :=
  images.enum.flatMap (fun p =>
    (validateUrl p.2.url ("images[" ++ toString p.1 ++ "].url") allowedDomains).toList)

/-- The `videos.forEach` block: thumbnail URL, content URL, title,
description, pushed in that order per video. -/
def videosErrors (videos : List VideoData) (allowedDomains : List String) :
    List ValidationError :=
  videos.enum.flatMap (fun p =>
    (validateUrl p.2.thumbnail_url ("videos[" ++ toString p.1 ++ "].thumbnail_url") allowedDomains).toList
      ++ (validateUrl p.2.content_url ("videos[" ++ toString p.1 ++ "].content_url") allowedDomains).toList
      ++ (validateRequiredString p.2.title ("videos[" ++ toString p.1 ++ "].title")).toList
      ++ (validateRequiredString p.2.description ("videos[" ++ toString p.1 ++ "].description")).toList)

/-- The `translations.forEach` block: required language, language grammar,
URL, pushed in that order per translation. -/
def translationsErrors (translations : List TranslationData)
    (allowedDomains : List String) : List ValidationError :=
  translations.enum.flatMap (fun p =>
    (validateRequiredString p.2.language ("translations[" ++ toString p.1 ++ "].language")).toList
      ++ (if !isValidLanguageCode p.2.language then
            [{ field := "translations[" ++ toString p.1 ++ "].language",
               type := "invalid_language",
               message := "language must be a valid RFC 3066 language code",
               value := .str p.2.language }]
          else [])
      ++ (validateUrl p.2.url ("translations[" ++ toString p.1 ++ "].url") allowedDomains).toList)

/-- `validateFeedItem` of the source, accumulating errors with `push` in the
source statement order; each `forEach` block is the indexed flat-map of its
per-element pushes. -/
def validateFeedItem (item : FeedItemData) (allowedDomains : List String) :
    List ValidationError :=
  let errors : List ValidationError := []
  let errors := pushOpt errors (validateRequiredString item.title "title")
  let errors := pushOpt errors (validateRequiredString item.description "description")
  let errors := pushOpt errors (validateUrl item.link "link" allowedDomains)
  let errors :=
    match item.author with
    | some a => pushOpt errors (validateRequiredString a "author")
    | none => errors
  let errors :=
    match item.priority with
    | some p =>
      if !isValidPriority p then
        errors ++ [{ field := "priority", type := "invalid_range",
                     message := "priority must be a number between 0.0 and 1.0",
                     value := .num p }]
      else errors
    | none => errors
  let errors :=
    match item.images with
    | some images => errors ++ imagesErrors images allowedDomains
    | none => errors
  let errors :=
    match item.videos with
    | some videos => errors ++ videosErrors videos allowedDomains
    | none => errors
  let errors :=
    match item.translations with
    | some translations => errors ++ translationsErrors translations allowedDomains
    | none => errors
  errors

/-- The validation result as the spec states it: the concatenation, in the
fixed rule order, of every applicable rule's violations (title, description,
link, author, priority, images, videos, translations). -/
def ruleErrorsInOrder (item : FeedItemData) (allowedDomains : List String) :
    List ValidationError :=
  (validateRequiredString item.title "title").toList
    ++ (validateRequiredString item.description "description").toList
    ++ (validateUrl item.link "link" allowedDomains).toList
    ++ (match item.author with
        | some a => (validateRequiredString a "author").toList
        | none => [])
    ++ (match item.priority with
        | some p =>
          if !isValidPriority p then
            [{ field := "priority", type := "invalid_range",
               message := "priority must be a number between 0.0 and 1.0",
               value := .num p }]
          else []
        | none => [])
    ++ (match item.images with
        | some images => imagesErrors images allowedDomains
        | none => [])
    ++ (match item.videos with
        | some videos => videosErrors videos allowedDomains
        | none => [])
    ++ (match item.translations with
        | some translations => translationsErrors translations allowedDomains
        | none => [])

/-! ## Feed configuration (`Feed.constructor`, lines 77-93 of the source) -/

/-- The caller-supplied configuration object: every field optional. -/
structure FeedConfigIn where
  baseUrl : Option String := none
  validate : Option Bool := none
  escapeContent : Option Bool := none
  prettyPrint : Option Bool := none
  dateFormat : Option String := none
  language : Option String := none
  maxItems : Option Nat := none
  maxFileSize : Option Nat := none
  allowedDomains : Option (List String) := none
  version : Option String := none
deriving DecidableEq

/-- The resolved `Required<FeedConfig>` held by the aggregate. -/
structure RConfig where
  baseUrl : String
  validate : Bool
  escapeContent : Bool
  prettyPrint : Bool
  dateFormat : String
  language : String
  maxItems : Nat
  maxFileSize : Nat
  allowedDomains : List String
  version : String
deriving DecidableEq

/-- JavaScript `a || d` defaulting for an optional string: an absent OR
empty (falsy) value is replaced by the default. -/
def orFalsyStr (v : Option String) (d : String) : String :=
  match v with
  | some s => if s = "" then d else s
  | none => d

/-- JavaScript `a || d` defaulting for an optional number: absent or zero
(falsy) is replaced by the default. -/
def orFalsyNat (v : Option Nat) (d : Nat) : Nat :=
  match v with
  | some n => if n = 0 then d else n
  | none => d

/-- Resolution of the constructor's config object. `||` fields use falsy
defaulting, `??` fields use presence-only (nullish) defaulting; an array is
never falsy, so `allowedDomains || []` only replaces an absent array. -/
def mkConfig (config : FeedConfigIn) : RConfig :=
  { baseUrl := orFalsyStr config.baseUrl ""
    validate := config.validate.getD false
    escapeContent := config.escapeContent.getD true
    prettyPrint := config.prettyPrint.getD false
    dateFormat := orFalsyStr config.dateFormat "ISO"
    language := orFalsyStr config.language "en"
    maxItems := orFalsyNat config.maxItems 50000
    maxFileSize := orFalsyNat config.maxFileSize (50 * 1024 * 1024)
    allowedDomains := config.allowedDomains.getD []
    version := config.version.getD "1.0.0" }

/-! ## The Feed aggregate state -/

structure FeedState where
  config : RConfig
  items : List FeedItemData
  title : String
  description : String
  link : String
  language : String
  copyright : String
  managingEditor : String
  webMaster : String
  category : String
  generator : String
  docs : String
  lastBuildDate : Nat
deriving DecidableEq

/-- The constructor: field initializers plus the config resolution;
`lastBuildDate` is initialized from the clock. -/
def mkFeed (config : FeedConfigIn) (now : Nat) : FeedState :=
  let rc := mkConfig config
  { config := rc
    items := []
    title := ""
    description := ""
    link := ""
    language := rc.language
    copyright := ""
    managingEditor := ""
    webMaster := ""
    category := ""
    generator := "@rumenx/feed"
    docs := "https://www.rssboard.org/rss-specification"
    lastBuildDate := now }

/-! ## Metadata setters (each stores the trimmed argument; none of them
touches `lastBuildDate` in the source) -/

def setTitle (title : String) (f : FeedState) : FeedState :=
  { f with title := jsTrim title }

def setDescription (description : String) (f : FeedState) : FeedState :=
  { f with description := jsTrim description }

def setLink (link : String) (f : FeedState) : FeedState :=
  { f with link := jsTrim link }

def setLanguage (language : String) (f : FeedState) : FeedState :=
  { f with language := jsTrim language }

def setCopyright (copyright : String) (f : FeedState) : FeedState :=
  { f with copyright := jsTrim copyright }

def setManagingEditor (email : String) (f : FeedState) : FeedState :=
  { f with managingEditor := jsTrim email }

def setCategory (category : String) (f : FeedState) : FeedState :=
  { f with category := jsTrim category }

def setWebMaster (email : String) (f : FeedState) : FeedState :=
  { f with webMaster := jsTrim email }

/-! ## URL resolution and item insertion -/

/-- `resolveUrl`: absolute URLs (or a missing base) pass through; otherwise
the base minus any trailing slash is concatenated with the path, a leading
slash inserted if absent. -/
def resolveUrl (config : RConfig) (url : String) : String :=
  if config.baseUrl = "" || jsStartsWith url "http://" || jsStartsWith url "https://" then
    url
  else
    let base := if jsEndsWith config.baseUrl "/" then String.mk config.baseUrl.data.dropLast
                else config.baseUrl
    let path := if jsStartsWith url "/" then url else "/" ++ url
    base ++ path

/-- `processItemData`: when a base URL is configured, rewrite the link and
every image / video / translation URL through `resolveUrl`. -/
def processItemData (config : RConfig) (itemData : FeedItemData) : FeedItemData :=
  if config.baseUrl = "" then itemData
  else
    { itemData with
      link := resolveUrl config itemData.link
      images := itemData.images.map (fun images =>
        images.map (fun img => { img with url := resolveUrl config img.url }))
      videos := itemData.videos.map (fun videos =>
        videos.map (fun video =>
          { video with
            thumbnail_url := resolveUrl config video.thumbnail_url
            content_url := resolveUrl config video.content_url }))
      translations := itemData.translations.map (fun translations =>
        translations.map (fun trans => { trans with url := resolveUrl config trans.url })) }

/-- The joined message of a thrown validation failure,
`errors.map(e => e.message).join(', ')`. -/
def joinedMessages (errors : List ValidationError) : String :=
  String.intercalate ", " (errors.map (fun e => e.message))

/-- `addItem`: eager validation (when configured) throws with the joined
messages before any mutation; otherwise the processed item is appended and
`lastBuildDate` refreshed. The source's guarded `throw` inside
`if (this.config.validate)` is written as one fused condition. -/
def addItem (f : FeedState) (itemData : FeedItemData) (now : Nat) :
    Except String FeedState :=
  if f.config.validate
      && (validateFeedItem itemData f.config.allowedDomains).length > 0 then
    .error ("Validation failed: "
      ++ joinedMessages (validateFeedItem itemData f.config.allowedDomains))
  else
    let processedData := processItemData f.config itemData
    .ok { f with items := f.items ++ [processedData], lastBuildDate := now }

/-- `addItems` via `forEach(itemData => this.addItem(itemData))`: because the
source mutates the aggregate in place, a throw part-way leaves the already
inserted items in place; the model returns the state reached together with
the propagated error, if any. -/
def addItems (f : FeedState) (itemsData : List FeedItemData) (now : Nat) :
    FeedState × Option String :=
  match itemsData with
  | [] => (f, none)
  | d :: ds =>
    match addItem f d now with
    | .ok f' => addItems f' ds now
    | .error e => (f, some e)

/-- `removeItems(predicate)` keeps the items the predicate rejects and
refreshes `lastBuildDate`. -/
def removeItems (f : FeedState) (pred : FeedItemData → Bool) (now : Nat) :
    FeedState :=
  { f with items := f.items.filter (fun item => !pred item), lastBuildDate := now }

/-- `clear()` empties the collection and refreshes `lastBuildDate`. -/
def clear (f : FeedState) (now : Nat) : FeedState :=
  { f with items := [], lastBuildDate := now }

/-! ## Statistics and splitting -/

structure FeedStats where
  totalItems : Nat
  totalImages : Nat
  totalVideos : Nat
  totalTranslations : Nat
  averagePriority : ℚ
  lastModified : Nat
  sizeEstimate : Nat
deriving DecidableEq

/-- `estimateSize`: base constant 1000 plus 2000 per item. -/
def estimateSize (f : FeedState) : Nat :=
  let baseSize := 1000
  let averageItemSize := 2000
  baseSize + f.items.length * averageItemSize

/-- `getStats` of the source. -/
def getStats (f : FeedState) : FeedStats :=
  let totalImages := f.items.foldl (fun sum item => sum + (item.images.getD []).length) 0
  let totalVideos := f.items.foldl (fun sum item => sum + (item.videos.getD []).length) 0
  let totalTranslations :=
    f.items.foldl (fun sum item => sum + (item.translations.getD []).length) 0
  let priorities := f.items.filterMap (fun item => item.priority)
  let averagePriority : ℚ :=
    if priorities.length > 0 then
      priorities.foldl (fun sum p => sum + p) 0 / (priorities.length : ℚ)
    else 0
  { totalItems := f.items.length
    totalImages := totalImages
    totalVideos := totalVideos
    totalTranslations := totalTranslations
    averagePriority := averagePriority
    lastModified := f.lastBuildDate
    sizeEstimate := estimateSize f }

/-- `shouldSplit`: item count strictly above `maxItems`, or estimated size
strictly above `maxFileSize`. -/
def shouldSplit (f : FeedState) : Bool :=
  f.items.length > f.config.maxItems || estimateSize f > f.config.maxFileSize

/-! ## JavaScript truthiness of optional fields -/

def strTruthy : Option String → Bool
  | some s => s != ""
  | none => false

def natTruthy : Option Nat → Bool
  | some n => n != 0
  | none => false

def pdTruthy : PubDate → Bool
  | .str s => s != ""
  | .date _ => true

def pubdateTruthy : Option PubDate → Bool
  | some d => pdTruthy d
  | none => false

/-- `if (item.category)`: a single empty string is falsy, an array (even an
empty one) is truthy. -/
def categoryTruthy : Option CategoryField → Bool
  | none => false
  | some (.one c) => c != ""
  | some (.many _) => true

/-- `Array.isArray(item.category) ? item.category : [item.category]`. -/
def categoryList : CategoryField → List String
  | .one c => [c]
  | .many cs => cs

/-! ## Date formatting (`src/utils/DateHelper.ts`), abstracted

The calendar arithmetic of `formatDate` / `formatRssDate` is not modelled:
re-serializing a date-like string is abstracted as the identity, a model
instant `t` renders as `"@t"`, and the RFC-822 conversion as an injective
tagged wrapper. No claim depends on the concrete date grammar; date-parse
failures lie outside every claim. -/

def isoOfInstant (t : Nat) : String := "@" ++ toString t

def formatDate : PubDate → String
  | .str s => s
  | .date t => isoOfInstant t

def formatRssDate (d : PubDate) : String := "rfc822(" ++ formatDate d ++ ")"

def formatAtomDate (d : PubDate) : String := formatDate d

/-- `FeedItem.getPubDate`: the stored pubdate if truthy (a string verbatim, a
Date via ISO serialization), otherwise the current instant AT CALL TIME. -/
def getPubDate (data : FeedItemData) (now : Nat) : String :=
  if !pubdateTruthy data.pubdate then isoOfInstant now
  else
    match data.pubdate with
    | some (.str s) => s
    | some (.date t) => isoOfInstant t
    | none => isoOfInstant now

/-! ## XML escaping (`src/utils/XmlHelper.ts`) -/

/-- `escapeXml`: the source's five sequential global replaces, each on a
single-character pattern. -/
def escapeXml (text : String) : String :=
  String.mk (replaceAllChar (replaceAllChar (replaceAllChar (replaceAllChar
    (replaceAllChar text.data '&' "&amp;".data)
    '<' "&lt;".data)
    '>' "&gt;".data)
    '"' "&quot;".data)
    '\x27' "&#39;".data)

/-! ## The re-indentation primitive `formatXml` -/

/-- Tokenization via `xml.split(/(<[^>]*>)/)`: a tag token runs from a `<`
to the FIRST following `>`; a `<` with no later `>` can start no match, so
the remainder is one final text part. Empty parts between adjacent matches
are kept, exactly as `String.prototype.split` keeps them. The structural
`fuel` argument only serves the recursion; every step consumes at least one
input character, so `fuel := cs.length` never runs out. -/
def splitTokensGo (fuel : Nat) (text : List Char) (cs : List Char) : List String :=
  match fuel, cs with
  | _, [] => [String.mk text.reverse]
  | 0, rest => [String.mk (text.reverse ++ rest)]
  | fuel + 1, c :: rest =>
    if c = '<' && rest.contains '>' then
      let tag := rest.takeWhile (fun d => d != '>')
      let r := rest.drop (tag.length + 1)
      String.mk text.reverse :: String.mk ('<' :: (tag ++ ['>'])) :: splitTokensGo fuel [] r
    else
      splitTokensGo fuel (c :: text) rest

def splitTokens (xml : String) : List String :=
  splitTokensGo xml.data.length [] xml.data

/-- `indent.repeat(level)` with the default two-space indent. A negative
count (a `RangeError` in the host language, unreachable from the renderers)
is modelled as the empty repetition. -/
def repeatIndent (level : Int) : String :=
  String.join (List.replicate level.toNat "  ")

/-- One iteration of the `formatXml` loop: `continue` on a blank token,
XML declaration on its own line, closing tags un-indented after inline text,
opening tags with the simple-inline-content lookahead, self-closing tags on
their own line, text inline exactly when a closing tag follows. -/
def formatStep (tokens : List String) (n : Nat) (st : Int × String) (i : Nat) :
    Int × String :=
  let level := st.1
  let result := st.2
  let token := jsTrim (tokens.getD i "")
  if token = "" then (level, result)
  else if jsStartsWith token "<?xml" then
    (level, result ++ token ++ "\n")
  else if jsStartsWith token "</" then
    let level := level - 1
    let prevToken := if i > 0 then jsTrim (tokens.getD (i - 1) "") else ""
    let isInlineContent := prevToken != "" && !jsStartsWith prevToken "<"
    let result := if !isInlineContent then result ++ repeatIndent level else result
    let result := result ++ token
    let result := if i < n - 1 then result ++ "\n" else result
    (level, result)
  else if jsStartsWith token "<" && !jsEndsWith token "/>" then
    let result := result ++ repeatIndent level ++ token
    let nextToken := if i + 1 < n then jsTrim (tokens.getD (i + 1) "") else ""
    let tokenAfter := if i + 2 < n then jsTrim (tokens.getD (i + 2) "") else ""
    let isSimpleInline :=
      nextToken != "" && !jsStartsWith nextToken "<" && jsStartsWith tokenAfter "</"
    let result := if !isSimpleInline then result ++ "\n" else result
    (level + 1, result)
  else if jsEndsWith token "/>" then
    (level, result ++ repeatIndent level ++ token ++ "\n")
  else
    let nextToken := if i + 1 < n then jsTrim (tokens.getD (i + 1) "") else ""
    let isInlineContent := jsStartsWith nextToken "</"
    if isInlineContent then (level, result ++ token)
    else (level, result ++ repeatIndent level ++ token ++ "\n")

/-- `formatXml` at its default indent: tokenize, run the loop, trim. -/
def formatXml (xml : String) : String :=
  let tokens := splitTokens xml
  let n := tokens.length
  jsTrim (((List.range n).foldl (formatStep tokens n) ((0 : Int), "")).2)

/-! ## RSS rendering (`Feed.generateRSSItem` / `Feed.generateRSS`) -/

/-- One `<media:content .../>` line per image: url always, type / width /
height only when truthy. -/
def rssImageTag (image : ImageData) : String :=
  let s := "      <media:content url=\"" ++ escapeXml image.url ++ "\""
  let s := if strTruthy image.type then
      s ++ " type=\"" ++ escapeXml (image.type.getD "") ++ "\"" else s
  let s := if natTruthy image.width then
      s ++ " width=\"" ++ toString (image.width.getD 0) ++ "\"" else s
  let s := if natTruthy image.height then
      s ++ " height=\"" ++ toString (image.height.getD 0) ++ "\"" else s
  s ++ "/>\n"

/-- One `<media:content type="video">` block per video with the nested
thumbnail; the duration attribute only when truthy. -/
def rssVideoTag (video : VideoData) : String :=
  let s := "      <media:content url=\"" ++ escapeXml video.content_url ++ "\" type=\"video\""
  let s := if natTruthy video.duration then
      s ++ " duration=\"" ++ toString (video.duration.getD 0) ++ "\"" else s
  s ++ ">\n"
    ++ "        <media:thumbnail url=\"" ++ escapeXml video.thumbnail_url ++ "\"/>\n"
    ++ "      </media:content>\n"

/-- The `if (item.pubdate)` block of `generateRSSItem` (source lines
457-459): a pubDate element only for a truthy pubdate, nothing otherwise. -/
def rssItemPubDatePart (item : FeedItemData) : String :=
  match item.pubdate with
  | some pd =>
    if pdTruthy pd then "      <pubDate>" ++ formatRssDate pd ++ "</pubDate>\n" else ""
  | none => ""

/-- `generateRSSItem`, one `+=` per source statement. -/
def generateRSSItem (item : FeedItemData) : String :=
  let rssItem := "    <item>\n"
  let rssItem := rssItem ++ "      <title>" ++ escapeXml item.title ++ "</title>\n"
  let rssItem := rssItem ++ "      <link>" ++ escapeXml item.link ++ "</link>\n"
  let rssItem := rssItem ++ "      <description>" ++ escapeXml item.description ++ "</description>\n"
  let rssItem := if strTruthy item.author then
      rssItem ++ "      <author>" ++ escapeXml (item.author.getD "") ++ "</author>\n"
    else rssItem
  let rssItem := if categoryTruthy item.category then
      rssItem ++ String.join ((categoryList (item.category.getD (.one ""))).map
        (fun cat => "      <category>" ++ escapeXml cat ++ "</category>\n"))
    else rssItem
  let rssItem := rssItem ++ rssItemPubDatePart item
  let guid := item.guid.getD item.link
  let rssItem := rssItem ++ "      <guid>" ++ escapeXml guid ++ "</guid>\n"
  let rssItem :=
    match item.enclosure with
    | some enc =>
      let s := "      <enclosure url=\"" ++ escapeXml enc.url
        ++ "\" type=\"" ++ escapeXml enc.type ++ "\""
      let s := if natTruthy enc.length then
          s ++ " length=\"" ++ toString (enc.length.getD 0) ++ "\"" else s
      rssItem ++ s ++ "/>\n"
    | none => rssItem
  let rssItem :=
    match item.images with
    | some images =>
      if images.length > 0 then rssItem ++ String.join (images.map rssImageTag) else rssItem
    | none => rssItem
  let rssItem :=
    match item.videos with
    | some videos =>
      if videos.length > 0 then rssItem ++ String.join (videos.map rssVideoTag) else rssItem
    | none => rssItem
  let rssItem :=
    match item.news with
    | some news =>
      if strTruthy news.keywords then
        rssItem ++ "      <news:keywords>" ++ escapeXml (news.keywords.getD "")
          ++ "</news:keywords>\n"
      else rssItem
    | none => rssItem
  rssItem ++ "    </item>\n"

/-- `hasMedia`: some item carries at least one image or at least one video
(`&&` binds tighter than `||` in the source condition). -/
def hasMedia (f : FeedState) : Bool :=
  f.items.any (fun item =>
    item.images.any (fun l => l.length > 0) || item.videos.any (fun l => l.length > 0))

/-- `hasGoogleNews`: some item carries a news block. -/
def hasGoogleNews (f : FeedState) : Bool :=
  f.items.any (fun item => item.news.isSome)

def mediaNsDecl : String := " xmlns:media=\"http://search.yahoo.com/mrss/\""

def newsNsDecl : String := " xmlns:news=\"http://www.google.com/schemas/sitemap-news/0.9\""

/-- The root element construction of `generateRSS` (source lines 510-518):
`<rss version="2.0"` plus the conditionally appended namespace
declarations, before `>` is appended. -/
def rssOpenTag (f : FeedState) : String :=
  "<rss version=\"2.0\""
    ++ (if hasMedia f then mediaNsDecl else "")
    ++ (if hasGoogleNews f then newsNsDecl else "")

/-- `generateRSS`: declaration, root tag, channel elements, items in
insertion order, closed and passed through `formatXml`. -/
def generateRSS (f : FeedState) : String :=
  let xmlDeclaration := "<?xml version=\"1.0\" encoding=\"UTF-8\"?>"
  let rss := rssOpenTag f
  let rss := rss ++ ">\n"
  let rss := rss ++ "  <channel>\n"
  let rss := rss ++ "    <title>" ++ escapeXml f.title ++ "</title>\n"
  let rss := rss ++ "    <link>" ++ escapeXml f.link ++ "</link>\n"
  let rss := rss ++ "    <description>" ++ escapeXml f.description ++ "</description>\n"
  let rss := if f.language != "" then
      rss ++ "    <language>" ++ escapeXml f.language ++ "</language>\n" else rss
  let rss := if f.managingEditor != "" then
      rss ++ "    <managingEditor>" ++ escapeXml f.managingEditor ++ "</managingEditor>\n"
    else rss
  let rss := if f.webMaster != "" then
      rss ++ "    <webMaster>" ++ escapeXml f.webMaster ++ "</webMaster>\n" else rss
  let rss := if f.category != "" then
      rss ++ "    <category>" ++ escapeXml f.category ++ "</category>\n" else rss
  let rss := if f.copyright != "" then
      rss ++ "    <copyright>" ++ escapeXml f.copyright ++ "</copyright>\n" else rss
  let rss := rss ++ "    <lastBuildDate>" ++ formatRssDate (.date f.lastBuildDate)
    ++ "</lastBuildDate>\n"
  let rss := rss ++ "    <generator>@rumenx/feed v"
    ++ (if f.config.version = "" then "1.0.0" else f.config.version) ++ "</generator>\n"
  let rss := rss ++ String.join (f.items.map generateRSSItem)
  let rss := rss ++ "  </channel>\n"
  let rss := rss ++ "</rss>"
  formatXml (xmlDeclaration ++ "\n" ++ rss)

/-! ## Atom rendering (`Feed.generateAtomEntry` / `Feed.generateAtom`) -/

/-- The `if (item.pubdate)` block of `generateAtomEntry` (source lines
616-618). -/
def atomEntryUpdatedPart (item : FeedItemData) : String :=
  match item.pubdate with
  | some pd =>
    if pdTruthy pd then "    <updated>" ++ formatAtomDate pd ++ "</updated>\n" else ""
  | none => ""

/-- `generateAtomEntry`. -/
def generateAtomEntry (item : FeedItemData) : String :=
  let entry := "  <entry>\n"
  let entry := entry ++ "    <title>" ++ escapeXml item.title ++ "</title>\n"
  let entry := entry ++ "    <link href=\"" ++ escapeXml item.link ++ "\"/>\n"
  let idValue := item.guid.getD item.link
  let entry := entry ++ "    <id>" ++ escapeXml idValue ++ "</id>\n"
  let entry := entry ++ atomEntryUpdatedPart item
  let entry := entry ++ "    <summary>" ++ escapeXml item.description ++ "</summary>\n"
  let entry := if strTruthy item.author then
      entry ++ "    <author>\n"
        ++ "      <name>" ++ escapeXml (item.author.getD "") ++ "</name>\n"
        ++ "    </author>\n"
    else entry
  let entry := if categoryTruthy item.category then
      entry ++ String.join ((categoryList (item.category.getD (.one ""))).map
        (fun cat => "    <category term=\"" ++ escapeXml cat ++ "\"/>\n"))
    else entry
  entry ++ "  </entry>\n"

/-- `generateAtom`. -/
def generateAtom (f : FeedState) : String :=
  let xmlDeclaration := "<?xml version=\"1.0\" encoding=\"UTF-8\"?>"
  let atom := "<feed xmlns=\"http://www.w3.org/2005/Atom\">\n"
  let atom := atom ++ "  <title>" ++ escapeXml f.title ++ "</title>\n"
  let atom := atom ++ "  <link href=\"" ++ escapeXml f.link ++ "\"/>\n"
  let atom := atom ++ "  <id>" ++ escapeXml f.link ++ "</id>\n"
  let atom := atom ++ "  <updated>" ++ formatAtomDate (.date f.lastBuildDate) ++ "</updated>\n"
  let atom := if f.description != "" then
      atom ++ "  <subtitle>" ++ escapeXml f.description ++ "</subtitle>\n" else atom
  let atom := if f.managingEditor != "" then
      atom ++ "  <author>\n"
        ++ "    <email>" ++ escapeXml f.managingEditor ++ "</email>\n"
        ++ "  </author>\n"
    else atom
  let atom := if f.copyright != "" then
      atom ++ "  <rights>" ++ escapeXml f.copyright ++ "</rights>\n" else atom
  let atom := atom ++ "  <generator>@rumenx/feed v"
    ++ (if f.config.version = "" then "1.0.0" else f.config.version) ++ "</generator>\n"
  let atom := atom ++ String.join (f.items.map generateAtomEntry)
  let atom := atom ++ "</feed>"
  formatXml (xmlDeclaration ++ "\n" ++ atom)

/-- `toXML(format)`: dispatch to the RSS or Atom renderer; any other format
value throws `Unsupported feed format`. -/
def toXML (f : FeedState) (format : String) : Except String String :=
  if format = "rss" then .ok (generateRSS f)
  else if format = "atom" then .ok (generateAtom f)
  else .error ("Unsupported feed format: " ++ format)

/-- A `toXML` call observed together with the aggregate state after the
call. Neither renderer contains an assignment to any field of the aggregate
in the source, so the post-call state of the translation is the pre-call
state. -/
def toXMLCall (f : FeedState) (format : String) :
    Except String String × FeedState :=
  (toXML f format, f)

/-! ## Concrete fixtures used by the witness and example theorems -/

/-- The item of spec scenario (c): empty title, valid description, link
that is not a URL. -/
def exItemInvalid : FeedItemData :=
  { title := "", description := "D", link := "not-a-url" }

/-- A fully valid plain item without pubdate, media or news. -/
def exItemPlain : FeedItemData :=
  { title := "A", description := "B", link := "https://ex.com/a" }

/-- A valid item carrying one image. -/
def exItemImage : FeedItemData :=
  { title := "A", description := "B", link := "https://ex.com/a",
    images := some [{ url := "https://ex.com/i.jpg" }] }

/-- A valid item carrying a news block. -/
def exItemNews : FeedItemData :=
  { title := "A", description := "B", link := "https://ex.com/a",
    news := some { sitename := "Ex", language := "en",
                   publication_date := .str "2024-01-01", title := "A" } }

/-- An aggregate with metadata but no items. -/
def exFeedPlain : FeedState :=
  setLink "https://ex.com" (setDescription "D" (setTitle "T" (mkFeed {} 7)))

/-- The plain aggregate holding one plain item. -/
def exFeedOneItem : FeedState :=
  { exFeedPlain with items := [exItemPlain] }

/-- The plain aggregate holding one image-carrying item. -/
def exFeedImage : FeedState :=
  { exFeedPlain with items := [exItemImage] }

/-- The plain aggregate holding one news-carrying item. -/
def exFeedNews : FeedState :=
  { exFeedPlain with items := [exItemNews] }

/-- An aggregate constructed with eager validation enabled. -/
def exFeedValidate : FeedState := mkFeed { validate := some true } 0

/-- An aggregate sitting exactly at both split boundaries: one item with
`maxItems = 1` and `maxFileSize = 3000 = 1000 + 1 * 2000`. -/
def exFeedBoundary : FeedState :=
  { mkFeed { maxItems := some 1, maxFileSize := some 3000 } 0 with
    items := [exItemPlain] }

/-- An aggregate constructed at instant 100 (used to watch `lastBuildDate`). -/
def exFeedT0 : FeedState :=
  setLink "https://ex.com" (setDescription "D" (setTitle "T" (mkFeed {} 100)))

/-- A resolution config with a slash-terminated base URL. -/
def exResolveConfig : RConfig := mkConfig { baseUrl := some "https://base.org/" }
/-- Fuel at least the input length never reaches the fuel-exhausted branch,
so `splitTokensGo` computes the genuine (fuel-free) tokenization. -/
theorem splitTokensGo_fuel_irrelevant (fuel fuel' : Nat) (text cs : List Char)
    (h : cs.length ≤ fuel) (h' : cs.length ≤ fuel') :
    splitTokensGo fuel text cs = splitTokensGo fuel' text cs := by
  induction fuel generalizing fuel' text cs with
  | zero =>
    cases cs with
    | nil => cases fuel' <;> rfl
    | cons c rest => simp at h
  | succ n ih =>
    cases cs with
    | nil => cases fuel' <;> rfl
    | cons c rest =>
      cases fuel' with
      | zero => simp at h'
      | succ m =>
        simp only [splitTokensGo]
        by_cases hc : (c = '<' && rest.contains '>') = true
        · simp only [hc, if_true]
          have hlen : (rest.drop ((rest.takeWhile (fun d => d != '>')).length + 1)).length
              ≤ rest.length := by
            simp only [List.length_drop]
            omega
          simp only [List.length_cons] at h h'
          rw [ih m [] (rest.drop ((rest.takeWhile (fun d => d != '>')).length + 1))
            (by omega) (by omega)]
        · simp only [hc, if_false]
          simp only [List.length_cons] at h h'
          exact ih _ (c :: text) rest (by omega) (by omega)

/-- Pushing an optional error is appending its option-as-list. -/
theorem pushOpt_eq_append (errors : List ValidationError)
    (e : Option ValidationError) : pushOpt errors e = errors ++ e.toList := by
  cases e <;> simp [pushOpt]

/-- C1: `validateFeedItem` never halts at the first violation: for every
item and allow-list it returns exactly the concatenation, in the fixed rule
order (title, description, link, author, priority, images[i].url, videos[i]
fields, translations[i] fields), of every applicable rule's violations; and
the item `{title: "", description: "D", link: "not-a-url"}` yields exactly
the `title`/`required` error followed by the `link`/`invalid_url` error. -/
theorem c1_validateFeedItem_rule_order :
    (∀ (item : FeedItemData) (allowedDomains : List String),
      validateFeedItem item allowedDomains = ruleErrorsInOrder item allowedDomains)
    ∧ validateFeedItem exItemInvalid [] =
      [{ field := "title", type := "required",
         message := "title is required and must be a non-empty string",
         value := .str "" },
       { field := "link", type := "invalid_url",
         message := "link must be a valid HTTP or HTTPS URL",
         value := .str "not-a-url" }] := by
  constructor
  · intro item allowedDomains
    unfold validateFeedItem ruleErrorsInOrder
    cases item.author <;> cases item.priority <;> cases item.images <;>
      cases item.videos <;> cases item.translations <;>
      simp [pushOpt_eq_append, List.append_assoc] <;>
      split <;> simp [List.append_assoc]
  · decide

/-- C2: with eager validation enabled, `addItem` on invalid data throws a
validation failure whose message carries ALL accumulated error messages
joined by `", "`, leaving the feed unchanged (witnessed by the
state-carrying batch form returning the untouched state); on valid data it
appends exactly one (processed) item at the end and refreshes
`lastBuildDate` to the current instant. -/
theorem c2_addItem_eager_validation (f : FeedState) (d : FeedItemData)
    (now : Nat) (hv : f.config.validate = true) :
    (validateFeedItem d f.config.allowedDomains = [] →
      addItem f d now =
        .ok { f with items := f.items ++ [processItemData f.config d],
                     lastBuildDate := now })
    ∧ (∀ e es, validateFeedItem d f.config.allowedDomains = e :: es →
        addItem f d now =
          .error ("Validation failed: " ++ joinedMessages (e :: es))
        ∧ addItems f [d] now =
            (f, some ("Validation failed: " ++ joinedMessages (e :: es)))) := by
  constructor
  · intro hnil
    unfold addItem
    rw [hv, hnil]
    simp
  · intro e es hcons
    have herr : addItem f d now =
        .error ("Validation failed: " ++ joinedMessages (e :: es)) := by
      unfold addItem
      rw [hv, hcons]
      simp
    refine ⟨herr, ?_⟩
    unfold addItems
    rw [herr]

/-- Witness for C2 at concrete inputs: the invalid scenario-(c) item is
rejected with both messages joined, and the valid plain item is appended. -/
theorem c2_addItem_eager_validation_witness :
    (addItem exFeedValidate exItemInvalid 3 =
      .error ("Validation failed: "
        ++ joinedMessages (validateFeedItem exItemInvalid
              exFeedValidate.config.allowedDomains))
      ∧ addItems exFeedValidate [exItemInvalid] 3 =
        (exFeedValidate, some ("Validation failed: "
          ++ joinedMessages (validateFeedItem exItemInvalid
                exFeedValidate.config.allowedDomains))))
    ∧ addItem exFeedValidate exItemPlain 3 =
      .ok { exFeedValidate with
            items := exFeedValidate.items
              ++ [processItemData exFeedValidate.config exItemPlain],
            lastBuildDate := 3 } := by
  constructor
  · have h := (c2_addItem_eager_validation exFeedValidate exItemInvalid 3 rfl).2
    have hcons : validateFeedItem exItemInvalid
        exFeedValidate.config.allowedDomains =
        { field := "title", type := "required",
          message := "title is required and must be a non-empty string",
          value := .str "" } ::
        [{ field := "link", type := "invalid_url",
           message := "link must be a valid HTTP or HTTPS URL",
           value := .str "not-a-url" }] := by decide
    have h2 := h _ _ hcons
    rw [hcons]
    exact h2
  · exact (c2_addItem_eager_validation exFeedValidate exItemPlain 3 rfl).1 (by decide)

/-- C3: with a non-empty base URL, a URL starting with `http://` or
`https://` passes through `resolveUrl` unchanged, any other URL is
rewritten to the base (trailing slash stripped) concatenated with the path
(leading slash inserted if absent); resolution is deterministic (the same
relative path against the same base resolves identically twice), and item
insertion routes the link and every image, video and translation URL
through this resolution. -/
theorem c3_resolveUrl_spec (config : RConfig) (url : String)
    (h : config.baseUrl ≠ "") :
    ((jsStartsWith url "http://" || jsStartsWith url "https://") = true →
      resolveUrl config url = url)
    ∧ ((jsStartsWith url "http://" || jsStartsWith url "https://") = false →
      resolveUrl config url =
        (if jsEndsWith config.baseUrl "/" then String.mk config.baseUrl.data.dropLast
         else config.baseUrl)
        ++ (if jsStartsWith url "/" then url else "/" ++ url))
    ∧ resolveUrl config url = resolveUrl config url
    ∧ (∀ item : FeedItemData,
        (processItemData config item).link = resolveUrl config item.link
        ∧ (processItemData config item).images
          = item.images.map (fun images =>
              images.map (fun img => { img with url := resolveUrl config img.url }))
        ∧ (processItemData config item).videos
          = item.videos.map (fun videos =>
              videos.map (fun video =>
                { video with
                  thumbnail_url := resolveUrl config video.thumbnail_url
                  content_url := resolveUrl config video.content_url }))
        ∧ (processItemData config item).translations
          = item.translations.map (fun translations =>
              translations.map (fun trans =>
                { trans with url := resolveUrl config trans.url }))) := by
  refine ⟨?_, ?_, rfl, ?_⟩
  · intro habs
    unfold resolveUrl
    rw [if_pos]
    simp [h, habs]
  · intro hrel
    unfold resolveUrl
    rw [if_neg]
    simp at hrel
    simp [h, hrel.1, hrel.2]
  · intro item
    unfold processItemData
    rw [if_neg h]
    exact ⟨rfl, rfl, rfl, rfl⟩

/-- Witness for C3 at concrete inputs: an absolute URL survives, a relative
path is glued onto the slash-stripped base. -/
theorem c3_resolveUrl_spec_witness :
    resolveUrl exResolveConfig "https://other.org/x" = "https://other.org/x"
    ∧ resolveUrl exResolveConfig "posts/1" =
      (if jsEndsWith exResolveConfig.baseUrl "/"
       then String.mk exResolveConfig.baseUrl.data.dropLast
       else exResolveConfig.baseUrl)
      ++ (if jsStartsWith "posts/1" "/" then "posts/1" else "/" ++ "posts/1") :=
  ⟨(c3_resolveUrl_spec exResolveConfig "https://other.org/x" (by decide)).1 (by decide),
   (c3_resolveUrl_spec exResolveConfig "posts/1" (by decide)).2.1 (by decide)⟩

set_option maxRecDepth 40000 in
/-- C4: the RSS root element carries the `xmlns:media` declaration exactly
when some item has at least one image or video, and the `xmlns:news`
declaration exactly when some item has a news block; concretely, the
full rendering of an image-carrying feed contains the media declaration, a
news-carrying feed the news declaration, and a plain feed neither. -/
theorem c4_rss_namespace_iff :
    (∀ f : FeedState,
      substrOf mediaNsDecl (rssOpenTag f) = hasMedia f
      ∧ substrOf newsNsDecl (rssOpenTag f) = hasGoogleNews f)
    ∧ substrOf mediaNsDecl (generateRSS exFeedImage) = true
    ∧ substrOf newsNsDecl (generateRSS exFeedNews) = true
    ∧ substrOf mediaNsDecl (generateRSS exFeedPlain) = false
    ∧ substrOf newsNsDecl (generateRSS exFeedPlain) = false := by
  refine ⟨?_, by decide, by decide, by decide, by decide⟩
  intro f
  unfold rssOpenTag
  cases hm : hasMedia f <;> cases hn : hasGoogleNews f <;>
    exact ⟨by decide, by decide⟩

/-- C5: `getStats().sizeEstimate` is exactly `1000 + 2000 * itemCount`;
`shouldSplit()` is true exactly when the item count strictly exceeds
`maxItems` or the size estimate strictly exceeds `maxFileSize`; when both
sit exactly at their boundary values, `shouldSplit()` is false. -/
theorem c5_stats_size_and_shouldSplit (f : FeedState) :
    (getStats f).sizeEstimate = 1000 + 2000 * f.items.length
    ∧ (shouldSplit f = true ↔
        (f.config.maxItems < f.items.length
          ∨ f.config.maxFileSize < 1000 + 2000 * f.items.length))
    ∧ (f.items.length = f.config.maxItems →
        1000 + 2000 * f.items.length = f.config.maxFileSize →
        shouldSplit f = false) := by
  refine ⟨?_, ?_, ?_⟩
  · simp [getStats, estimateSize]
    ring
  · simp [shouldSplit, estimateSize]
    constructor
    · rintro (h | h)
      · exact Or.inl h
      · right
        omega
    · rintro (h | h)
      · exact Or.inl h
      · right
        omega
  · intro h1 h2
    simp [shouldSplit, estimateSize]
    omega

/-- Witness for C5: the boundary aggregate (one item, `maxItems = 1`,
`maxFileSize = 3000`) is not split. -/
theorem c5_stats_size_and_shouldSplit_witness :
    shouldSplit exFeedBoundary = false :=
  (c5_stats_size_and_shouldSplit exFeedBoundary).2.2 (by decide) (by decide)

/-- C6: `addItems` applies `addItem` element by element in list order; when
eager validation rejects an element, every earlier (valid) element of the
batch is already inserted in order, the joined-message failure propagates,
and nothing is rolled back. -/
theorem c6_addItems_not_transactional (f : FeedState)
    (pre post : List FeedItemData) (d : FeedItemData) (now : Nat)
    (hv : f.config.validate = true)
    (hpre : ∀ x ∈ pre, validateFeedItem x f.config.allowedDomains = [])
    (hd : validateFeedItem d f.config.allowedDomains ≠ []) :
    (addItems f (pre ++ d :: post) now).1.items
      = f.items ++ pre.map (processItemData f.config)
    ∧ (addItems f (pre ++ d :: post) now).2
      = some ("Validation failed: "
          ++ joinedMessages (validateFeedItem d f.config.allowedDomains))
    ∧ (addItems f (pre ++ d :: post) now).1.config = f.config := by
  induction pre generalizing f with
  | nil =>
    have hlen : 0 < (validateFeedItem d f.config.allowedDomains).length :=
      List.length_pos.mpr hd
    have herr : addItem f d now =
        .error ("Validation failed: "
          ++ joinedMessages (validateFeedItem d f.config.allowedDomains)) := by
      unfold addItem
      rw [hv]
      simp [hlen]
    simp [addItems, herr]
  | cons x xs ih =>
    have hx : validateFeedItem x f.config.allowedDomains = [] :=
      hpre x (List.mem_cons_self x xs)
    have hok : addItem f x now =
        .ok { f with items := f.items ++ [processItemData f.config x],
                     lastBuildDate := now } := by
      unfold addItem
      rw [if_neg]
      rw [hv, hx]
      simp
    simp only [List.cons_append, addItems, hok]
    have ih' := ih { f with items := f.items ++ [processItemData f.config x],
                            lastBuildDate := now }
      hv (fun y hy => hpre y (List.mem_cons_of_mem x hy)) hd
    simpa [List.append_assoc] using ih'

/-- Witness for C6: a three-element batch whose middle element is invalid
leaves exactly the first element inserted and propagates the failure. -/
theorem c6_addItems_not_transactional_witness :
    (addItems exFeedValidate ([exItemPlain] ++ exItemInvalid :: [exItemImage]) 5).1.items
      = exFeedValidate.items ++ [exItemPlain].map (processItemData exFeedValidate.config)
    ∧ (addItems exFeedValidate ([exItemPlain] ++ exItemInvalid :: [exItemImage]) 5).2
      = some ("Validation failed: "
          ++ joinedMessages (validateFeedItem exItemInvalid
                exFeedValidate.config.allowedDomains))
    ∧ (addItems exFeedValidate ([exItemPlain] ++ exItemInvalid :: [exItemImage]) 5).1.config
      = exFeedValidate.config :=
  c6_addItems_not_transactional exFeedValidate [exItemPlain] [exItemImage]
    exItemInvalid 5 (by decide) (by decide) (by decide)

/-- C7: rendering is side-effect-free and repeatable: a `toXML` call leaves
the aggregate state (metadata, item list, `lastBuildDate`, statistics)
unchanged, dispatches `"rss"` and `"atom"` to the pure renderers, and a
second call on the post-call state returns the byte-identical string. -/
theorem c7_render_pure_idempotent (f : FeedState) (format : String) :
    (toXMLCall f format).2 = f
    ∧ getStats (toXMLCall f format).2 = getStats f
    ∧ (toXMLCall f format).1 = (toXMLCall (toXMLCall f format).2 format).1
    ∧ toXML f "rss" = .ok (generateRSS f)
    ∧ toXML f "atom" = .ok (generateAtom f) :=
  ⟨rfl, rfl, rfl, rfl, rfl⟩

/-- C8 counterexample: the metadata setters do NOT recompute
`lastBuildDate`. On the aggregate built at instant 100, every setter call
leaves `lastBuildDate` at 100, while a genuinely refreshing operation
(`clear` at instant 101) stores 101 — so a setter invoked at instant 101
does not store the current instant as the claim requires. -/
theorem c8_setters_counterexample :
    (setTitle "Changed" exFeedT0).lastBuildDate = 100
    ∧ (setDescription "Changed" exFeedT0).lastBuildDate = 100
    ∧ (setLink "https://changed.com" exFeedT0).lastBuildDate = 100
    ∧ (setLanguage "de" exFeedT0).lastBuildDate = 100
    ∧ (setCopyright "c" exFeedT0).lastBuildDate = 100
    ∧ (setManagingEditor "e@x.com" exFeedT0).lastBuildDate = 100
    ∧ (setWebMaster "w@x.com" exFeedT0).lastBuildDate = 100
    ∧ (setCategory "cat" exFeedT0).lastBuildDate = 100
    ∧ (clear exFeedT0 101).lastBuildDate = 101
    ∧ (100 : Nat) ≠ 101 := by
  decide

/-- C8 amended: only the item-collection operations refresh
`lastBuildDate` — a successful `addItem` (hence `addItems`), `removeItems`
and `clear` store the current instant, while every metadata setter leaves
`lastBuildDate` unchanged. -/
theorem c8_lastBuildDate_amended (f : FeedState) (s : String)
    (p : FeedItemData → Bool) (d : FeedItemData) (now : Nat) (f' : FeedState)
    (h : addItem f d now = .ok f') :
    (setTitle s f).lastBuildDate = f.lastBuildDate
    ∧ (setDescription s f).lastBuildDate = f.lastBuildDate
    ∧ (setLink s f).lastBuildDate = f.lastBuildDate
    ∧ (setLanguage s f).lastBuildDate = f.lastBuildDate
    ∧ (setCopyright s f).lastBuildDate = f.lastBuildDate
    ∧ (setManagingEditor s f).lastBuildDate = f.lastBuildDate
    ∧ (setWebMaster s f).lastBuildDate = f.lastBuildDate
    ∧ (setCategory s f).lastBuildDate = f.lastBuildDate
    ∧ (removeItems f p now).lastBuildDate = now
    ∧ (clear f now).lastBuildDate = now
    ∧ f'.lastBuildDate = now := by
  refine ⟨rfl, rfl, rfl, rfl, rfl, rfl, rfl, rfl, rfl, rfl, ?_⟩
  unfold addItem at h
  by_cases hc : (f.config.validate
      && (validateFeedItem d f.config.allowedDomains).length > 0) = true
  · rw [if_pos hc] at h
    cases h
  · rw [if_neg hc] at h
    cases h
    rfl

/-- Witness for C8 amended, at the concrete aggregate built at 100 and a
successful insertion at instant 123. -/
theorem c8_lastBuildDate_amended_witness :
    (setTitle "X" exFeedT0).lastBuildDate = exFeedT0.lastBuildDate
    ∧ (setDescription "X" exFeedT0).lastBuildDate = exFeedT0.lastBuildDate
    ∧ (setLink "X" exFeedT0).lastBuildDate = exFeedT0.lastBuildDate
    ∧ (setLanguage "X" exFeedT0).lastBuildDate = exFeedT0.lastBuildDate
    ∧ (setCopyright "X" exFeedT0).lastBuildDate = exFeedT0.lastBuildDate
    ∧ (setManagingEditor "X" exFeedT0).lastBuildDate = exFeedT0.lastBuildDate
    ∧ (setWebMaster "X" exFeedT0).lastBuildDate = exFeedT0.lastBuildDate
    ∧ (setCategory "X" exFeedT0).lastBuildDate = exFeedT0.lastBuildDate
    ∧ (removeItems exFeedT0 (fun _ => true) 123).lastBuildDate = 123
    ∧ (clear exFeedT0 123).lastBuildDate = 123
    ∧ ({ exFeedT0 with
         items := exFeedT0.items ++ [processItemData exFeedT0.config exItemPlain],
         lastBuildDate := 123 } : FeedState).lastBuildDate = 123 :=
  c8_lastBuildDate_amended exFeedT0 "X" (fun _ => true) exItemPlain 123
    { exFeedT0 with
      items := exFeedT0.items ++ [processItemData exFeedT0.config exItemPlain],
      lastBuildDate := 123 }
    rfl

set_option maxRecDepth 40000 in
/-- C9 counterexample: an entry added without a pubdate is rendered WITHOUT
any timestamp: its RSS item contains no pubDate element, the full RSS
document of the aggregate holding it contains none either, and its Atom
entry contains no updated element — so rendering assigns no
insertion-bounded timestamp at all. -/
theorem c9_missing_pubdate_counterexample :
    exItemPlain.pubdate = none
    ∧ substrOf "<pubDate>" (generateRSSItem exItemPlain) = false
    ∧ substrOf "<pubDate>" (generateRSS exFeedOneItem) = false
    ∧ substrOf "<updated>" (generateAtomEntry exItemPlain) = false := by
  refine ⟨rfl, by decide, by decide, by decide⟩

/-- C9 amended: for an entry without a pubdate, rendering emits no
timestamp element at all (the RSS pubDate block and the Atom updated block
contribute the empty string); the `getPubDate` accessor — which the
renderers never call — returns the current instant at CALL time, not a
value bounded by the insertion instant. -/
theorem c9_missing_pubdate_amended (item : FeedItemData) (now : Nat)
    (h : item.pubdate = none) :
    rssItemPubDatePart item = ""
    ∧ atomEntryUpdatedPart item = ""
    ∧ getPubDate item now = isoOfInstant now := by
  refine ⟨?_, ?_, ?_⟩
  · unfold rssItemPubDatePart
    rw [h]
  · unfold atomEntryUpdatedPart
    rw [h]
  · unfold getPubDate
    rw [h]
    simp [pubdateTruthy]

/-- Witness for C9 amended at the concrete pubdate-less item and call
instant 42. -/
theorem c9_missing_pubdate_amended_witness :
    rssItemPubDatePart exItemPlain = ""
    ∧ atomEntryUpdatedPart exItemPlain = ""
    ∧ getPubDate exItemPlain 42 = isoOfInstant 42 :=
  c9_missing_pubdate_amended exItemPlain 42 rfl

/-- C10: constructing with explicitly supplied falsy values for `baseUrl`,
`dateFormat`, `language`, `maxItems` and `maxFileSize` yields exactly the
configuration of an empty constructor call (the `||` defaults 50000,
52428800, `""`, `"ISO"`, `"en"` replace the supplied falsy values), while
the nullish-defaulted `validate`, `escapeContent`, `prettyPrint` and
`version` retain explicitly supplied falsy values. -/
theorem c10_config_falsy_defaults :
    (mkConfig { baseUrl := some "", validate := some false,
                escapeContent := some false, prettyPrint := some false,
                dateFormat := some "", language := some "",
                maxItems := some 0, maxFileSize := some 0,
                version := some "" }).baseUrl = (mkConfig {}).baseUrl
    ∧ (mkConfig { baseUrl := some "", dateFormat := some "" }).dateFormat
      = (mkConfig {}).dateFormat
    ∧ (mkConfig { language := some "" }).language = (mkConfig {}).language
    ∧ (mkConfig { maxItems := some 0 }).maxItems = (mkConfig {}).maxItems
    ∧ (mkConfig { maxFileSize := some 0 }).maxFileSize = (mkConfig {}).maxFileSize
    ∧ (mkConfig {}).baseUrl = ""
    ∧ (mkConfig {}).dateFormat = "ISO"
    ∧ (mkConfig {}).language = "en"
    ∧ (mkConfig {}).maxItems = 50000
    ∧ (mkConfig {}).maxFileSize = 52428800
    ∧ (mkConfig { validate := some false }).validate = false
    ∧ (mkConfig { escapeContent := some false }).escapeContent = false
    ∧ (mkConfig {}).escapeContent = true
    ∧ (mkConfig { prettyPrint := some false }).prettyPrint = false
    ∧ (mkConfig { version := some "" }).version = ""
    ∧ (mkConfig {}).version = "1.0.0" := by
  decide

end NpmFeed
